import Mathlib

/-!
Verification of the seniwise-frontend-mockup list pipeline, localization
helpers and table renderer, as a shallow embedding in Lean 4.

Strings are modelled as `List Char` (`Str`).  JavaScript's
`String.prototype.toLowerCase` is modelled per code point by
`Char.toLower` (ASCII case folding), `String.prototype.trim` by removing
JS whitespace from both ends, `String.prototype.includes` by list-infix,
and `localeCompare(_, "en", { sensitivity: "base" })` by code-point
comparison of the case-folded strings.  `Array.prototype.sort` (stable
since ES2019) is modelled by `List.mergeSort`.
-/

/-- Strings as lists of characters. -/
abbrev Str := List Char

/-- JS whitespace test (the WhiteSpace and LineTerminator code points used
by `String.prototype.trim`, restricted to the BMP code points that occur
in practice). -/
def jsWs (c : Char) : Bool :=
  c.toNat = 9 || c.toNat = 10 || c.toNat = 11 || c.toNat = 12 ||
  c.toNat = 13 || c.toNat = 32 || c.toNat = 160 || c.toNat = 0xFEFF ||
  c.toNat = 0x2028 || c.toNat = 0x2029

/-- Leading-whitespace removal (JS `trimStart`, also the leading-space step
of `parseInt`). -/
def trimStart (s : Str) : Str := s.dropWhile jsWs

/-- Trailing-whitespace removal (JS `trimEnd`). -/
def trimEnd (s : Str) : Str := (s.reverse.dropWhile jsWs).reverse

/-- JS `String.prototype.trim`. -/
def jsTrim (s : Str) : Str := trimEnd (trimStart s)

/-- JS `String.prototype.toLowerCase`, code point by code point. -/
def lower (s : Str) : Str := s.map Char.toLower

/-- Evaluating `Char.ofNat` at a valid code point. -/
theorem charToNat_ofNat (n : Nat) (h : Nat.isValidChar n) :
    (Char.ofNat n).toNat = n := by
  simp only [Char.ofNat, h, dif_pos]
  rfl

/-- ASCII case folding maps no character into or out of the JS whitespace
set. -/
theorem jsWs_toLower (c : Char) : jsWs (Char.toLower c) = jsWs c := by
  simp only [Char.toLower]
  split
  · next h =>
    obtain ⟨h65, h90⟩ := h
    have hv : Nat.isValidChar (c.toNat + 32) := Or.inl (by omega)
    have hfalse1 : jsWs (Char.ofNat (c.toNat + 32)) = false := by
      simp only [jsWs, charToNat_ofNat _ hv, Bool.or_eq_false_iff,
        decide_eq_false_iff_not]
      omega
    have hfalse2 : jsWs c = false := by
      simp only [jsWs, Bool.or_eq_false_iff, decide_eq_false_iff_not]
      omega
    rw [hfalse1, hfalse2]
  · rfl

/-- Case folding commutes with dropping a whitespace prefix. -/
theorem lower_dropWhile (s : Str) :
    (lower s).dropWhile jsWs = lower (s.dropWhile jsWs) := by
  have hfun : (jsWs ∘ Char.toLower) = jsWs := by
    funext c
    exact jsWs_toLower c
  simp [lower, List.dropWhile_map, hfun]

/-- Case folding commutes with `trimStart`. -/
theorem lower_trimStart (s : Str) :
    lower (trimStart s) = trimStart (lower s) := by
  simp only [trimStart]
  exact (lower_dropWhile s).symm

/-- Case folding commutes with `List.reverse`. -/
theorem lower_reverse (s : Str) : lower s.reverse = (lower s).reverse := by
  simp [lower]

/-- Case folding commutes with `trimEnd`. -/
theorem lower_trimEnd (s : Str) : lower (trimEnd s) = trimEnd (lower s) := by
  simp only [trimEnd]
  rw [lower_reverse, ← lower_dropWhile, lower_reverse]

/-- Case folding commutes with `jsTrim`. -/
theorem lower_jsTrim (s : Str) : lower (jsTrim s) = jsTrim (lower s) := by
  rw [jsTrim, lower_trimEnd, lower_trimStart, jsTrim]

/-- The head surviving `dropWhile jsWs` is not whitespace. -/
theorem jsWs_head_dropWhile {s t : Str} {c : Char}
    (h : s.dropWhile jsWs = c :: t) : jsWs c = false := by
  induction s with
  | nil => simp at h
  | cons a s ih =>
    by_cases ha : jsWs a
    · rw [List.dropWhile_cons_of_pos ha] at h
      exact ih h
    · rw [List.dropWhile_cons_of_neg ha] at h
      cases h
      exact Bool.not_eq_true _ ▸ (by simpa using ha)

/-- A nonempty string that starts with a non-whitespace character stays an
infix after a whitespace prefix is dropped. -/
theorem infix_dropWhile_of_head {c : Char} {q l : Str}
    (hc : jsWs c = false) (h : (c :: q) <:+: l) :
    (c :: q) <:+: l.dropWhile jsWs := by
  induction l with
  | nil =>
    exact absurd (List.eq_nil_of_infix_nil h) (by simp)
  | cons d l ih =>
    by_cases hd : jsWs d
    · rw [List.dropWhile_cons_of_pos hd]
      obtain ⟨s, t, hst⟩ := h
      cases s with
      | nil =>
        simp at hst
        rw [← hst.1] at hd
        rw [hc] at hd
        simp at hd
      | cons e s =>
        apply ih
        simp only [List.cons_append] at hst
        injection hst with h1 h2
        exact ⟨s, t, by simpa using h2⟩
    · rwa [List.dropWhile_cons_of_neg hd]

/-- Counterpart of `infix_dropWhile_of_head` on the right end. -/
theorem infix_trimEnd_of_last {c : Char} {q l : Str}
    (hc : jsWs c = false) (h : (q ++ [c]) <:+: l) :
    (q ++ [c]) <:+: trimEnd l := by
  rw [← List.reverse_infix] at h ⊢
  simp only [List.reverse_append, List.reverse_cons, List.reverse_nil,
    List.nil_append, List.singleton_append] at h ⊢
  simpa [trimEnd] using infix_dropWhile_of_head hc h

/-- A string that is already trimmed stays an infix after `jsTrim`. -/
theorem infix_jsTrim {c d : Char} {q₀ q₁ l : Str}
    (hc : jsWs c = false) (hd : jsWs d = false)
    (hshape : c :: q₀ = q₁ ++ [d]) (h : (c :: q₀) <:+: l) :
    (c :: q₀) <:+: jsTrim l := by
  have h1 : (c :: q₀) <:+: trimStart l := infix_dropWhile_of_head hc h
  rw [hshape] at h1 ⊢
  exact infix_trimEnd_of_last hd h1

/-- Dropping trailing whitespace yields a prefix of the original list. -/
theorem trimEnd_isPrefix (s : Str) : trimEnd s <+: s := by
  rw [trimEnd, ← List.reverse_suffix, List.reverse_reverse]
  exact List.dropWhile_suffix jsWs

/-- The first character of a trimmed string is not whitespace. -/
theorem jsTrim_head_not_ws {s t : Str} {c : Char}
    (h : jsTrim s = c :: t) : jsWs c = false := by
  obtain ⟨r, hr⟩ := trimEnd_isPrefix (trimStart s)
  rw [jsTrim] at h
  rw [h] at hr
  exact jsWs_head_dropWhile (t := t ++ r) (by simpa [trimStart] using hr.symm)

/-- The last character of a trimmed string is not whitespace. -/
theorem jsTrim_last_not_ws {s q : Str} {d : Char}
    (h : jsTrim s = q ++ [d]) : jsWs d = false := by
  have hrev : (trimStart s).reverse.dropWhile jsWs = d :: q.reverse := by
    have := congrArg List.reverse h
    simpa [jsTrim, trimEnd] using this
  exact jsWs_head_dropWhile hrev

/-- A string of the form `jsTrim raw` that occurs inside `l` also occurs
inside `jsTrim l`: trimming only removes whitespace from the two ends, and
a trimmed needle neither starts nor ends with whitespace. -/
theorem jsTrim_infix_jsTrim {raw l : Str}
    (h : jsTrim raw <:+: l) : jsTrim raw <:+: jsTrim l := by
  cases hE : jsTrim raw with
  | nil => exact List.nil_infix
  | cons c q' =>
    have hc : jsWs c = false := jsTrim_head_not_ws hE
    have hne : (c :: q' : Str) ≠ [] := by simp
    have hshape : c :: q' = (c :: q').dropLast ++ [(c :: q').getLast hne] :=
      (List.dropLast_append_getLast hne).symm
    have hd : jsWs ((c :: q').getLast hne) = false :=
      jsTrim_last_not_ws (s := raw) (by rw [hE, ← hshape])
    rw [hE] at h
    exact infix_jsTrim hc hd hshape h

/-- Code-point comparison of two characters (the ordering JS uses for the
`<`/`>` string operators and, after case folding, our model of
`localeCompare` with base sensitivity). -/
def charCmp (a b : Char) : Ordering :=
  if a.toNat < b.toNat then .lt else if b.toNat < a.toNat then .gt else .eq

/-- Lexicographic comparison of two character lists. -/
def lexCmp : Str → Str → Ordering
  | [], [] => .eq
  | [], _ :: _ => .lt
  | _ :: _, [] => .gt
  | a :: as, b :: bs => (charCmp a b).then (lexCmp as bs)

/-- Model of `a.localeCompare(b, "en", { sensitivity: "base" })`:
code-point comparison of the case-folded strings. -/
def strCmpCI (a b : Str) : Ordering := lexCmp (lower a) (lower b)

/-- JS string strict-less-than (`a < b` on strings, used by the
last-visit fold through `visit.date > lastVisitDate`). -/
def jsStrLt (a b : Str) : Bool := lexCmp a b = Ordering.lt

/-- A comparator is oriented when swapping its arguments swaps its
verdict. -/
def OrdSymm {α : Type _} (cmp : α → α → Ordering) : Prop :=
  ∀ a b, cmp a b = (cmp b a).swap

/-- Transitivity of the non-strict order induced by a comparator. -/
def OrdLeTrans {α : Type _} (cmp : α → α → Ordering) : Prop :=
  ∀ a b c, (cmp a b).isLE → (cmp b c).isLE → (cmp a c).isLE

theorem charCmp_symm (a b : Char) : charCmp a b = (charCmp b a).swap := by
  simp only [charCmp]
  split_ifs <;> first | rfl | omega

theorem charCmp_eq_iff {a b : Char} :
    charCmp a b = .eq ↔ a.toNat = b.toNat := by
  simp only [charCmp]
  split_ifs <;> simp <;> omega

theorem charCmp_lt_iff {a b : Char} :
    charCmp a b = .lt ↔ a.toNat < b.toNat := by
  simp only [charCmp]
  split_ifs <;> simp <;> omega

theorem lexCmp_symm : ∀ a b : Str, lexCmp a b = (lexCmp b a).swap := by
  intro a
  induction a with
  | nil => intro b; cases b <;> rfl
  | cons x xs ih =>
    intro b
    cases b with
    | nil => rfl
    | cons y ys =>
      simp only [lexCmp]
      rw [charCmp_symm x y]
      cases charCmp y x with
      | lt => simp [Ordering.then, Ordering.swap]
      | eq => simpa [Ordering.then, Ordering.swap] using ih ys
      | gt => simp [Ordering.then, Ordering.swap]

theorem lexCmp_leTrans : ∀ a b c : Str,
    (lexCmp a b).isLE → (lexCmp b c).isLE → (lexCmp a c).isLE := by
  intro a
  induction a with
  | nil =>
    intro b c _ _
    cases c <;> simp [lexCmp, Ordering.isLE]
  | cons x xs ih =>
    intro b c h1 h2
    cases b with
    | nil => simp [lexCmp, Ordering.isLE] at h1
    | cons y ys =>
      cases c with
      | nil => simp [lexCmp, Ordering.isLE] at h2
      | cons z zs =>
        simp only [lexCmp] at h1 h2 ⊢
        cases hxy : charCmp x y with
        | gt => rw [hxy] at h1; simp [Ordering.then, Ordering.isLE] at h1
        | lt =>
          cases hyz : charCmp y z with
          | gt => rw [hyz] at h2; simp [Ordering.then, Ordering.isLE] at h2
          | lt =>
            have : charCmp x z = .lt := by
              rw [charCmp_lt_iff] at hxy hyz ⊢
              omega
            simp [this, Ordering.then, Ordering.isLE]
          | eq =>
            have : charCmp x z = .lt := by
              rw [charCmp_lt_iff] at hxy ⊢
              rw [charCmp_eq_iff] at hyz
              omega
            simp [this, Ordering.then, Ordering.isLE]
        | eq =>
          cases hyz : charCmp y z with
          | gt => rw [hyz] at h2; simp [Ordering.then, Ordering.isLE] at h2
          | lt =>
            have : charCmp x z = .lt := by
              rw [charCmp_lt_iff] at hyz ⊢
              rw [charCmp_eq_iff] at hxy
              omega
            simp [this, Ordering.then, Ordering.isLE]
          | eq =>
            have hxz : charCmp x z = .eq := by
              rw [charCmp_eq_iff] at hxy hyz ⊢
              omega
            rw [hxy] at h1
            rw [hyz] at h2
            rw [hxz]
            simp only [Ordering.then] at h1 h2 ⊢
            exact ih ys zs h1 h2

theorem strCmpCI_symm (a b : Str) : strCmpCI a b = (strCmpCI b a).swap :=
  lexCmp_symm _ _

theorem strCmpCI_leTrans (a b c : Str) :
    (strCmpCI a b).isLE → (strCmpCI b c).isLE → (strCmpCI a c).isLE :=
  lexCmp_leTrans _ _ _

theorem then_swap (o₁ o₂ : Ordering) :
    (o₁.then o₂).swap = o₁.swap.then o₂.swap := by
  cases o₁ <;> rfl

theorem ordSymm_then {α : Type _} {f g : α → α → Ordering}
    (hf : OrdSymm f) (hg : OrdSymm g) :
    OrdSymm (fun a b => (f a b).then (g a b)) := by
  intro a b
  show (f a b).then (g a b) = ((f b a).then (g b a)).swap
  rw [hf a b, hg a b, ← then_swap]

theorem isLE_then_iff (o₁ o₂ : Ordering) :
    (o₁.then o₂).isLE ↔ o₁ = .lt ∨ (o₁ = .eq ∧ o₂.isLE) := by
  cases o₁ <;> simp [Ordering.then, Ordering.isLE]

theorem ordLeTrans_then {α : Type _} {f g : α → α → Ordering}
    (hfs : OrdSymm f) (hft : OrdLeTrans f) (hgt : OrdLeTrans g) :
    OrdLeTrans (fun a b => (f a b).then (g a b)) := by
  intro a b c h1 h2
  rw [isLE_then_iff] at h1 h2 ⊢
  have hfabLE : (f a b).isLE := by
    rcases h1 with h | h
    · simp [h, Ordering.isLE]
    · simp [h.1, Ordering.isLE]
  have hfbcLE : (f b c).isLE := by
    rcases h2 with h | h
    · simp [h, Ordering.isLE]
    · simp [h.1, Ordering.isLE]
  have hfacLE : (f a c).isLE := hft a b c hfabLE hfbcLE
  cases hfac : f a c with
  | lt => exact Or.inl rfl
  | gt => rw [hfac] at hfacLE; simp [Ordering.isLE] at hfacLE
  | eq =>
    refine Or.inr ⟨rfl, ?_⟩
    have hca : (f c a).isLE := by
      rw [hfs c a, hfac]
      simp [Ordering.swap, Ordering.isLE]
    rcases h1 with hab | ⟨hab, hgab⟩
    · exfalso
      have hba := hft b c a hfbcLE hca
      rw [hfs b a, hab] at hba
      simp [Ordering.swap, Ordering.isLE] at hba
    · rcases h2 with hbc | ⟨hbc, hgbc⟩
      · exfalso
        have hcb := hft c a b hca hfabLE
        rw [hfs c b, hbc] at hcb
        simp [Ordering.swap, Ordering.isLE] at hcb
      · exact hgt a b c hgab hgbc

theorem ordSymm_swap {α : Type _} {f : α → α → Ordering} (hf : OrdSymm f) :
    OrdSymm (fun a b => (f a b).swap) := by
  intro a b
  show (f a b).swap = ((f b a).swap).swap
  rw [hf a b]

theorem ordLeTrans_swap {α : Type _} {f : α → α → Ordering}
    (hfs : OrdSymm f) (hft : OrdLeTrans f) :
    OrdLeTrans (fun a b => (f a b).swap) := by
  intro a b c h1 h2
  replace h1 : ((f a b).swap).isLE := h1
  replace h2 : ((f b c).swap).isLE := h2
  show ((f a c).swap).isLE
  rw [hfs a b, Ordering.swap_swap] at h1
  rw [hfs b c, Ordering.swap_swap] at h2
  rw [hfs a c, Ordering.swap_swap]
  exact hft c b a h2 h1

theorem ordTotal {α : Type _} {f : α → α → Ordering} (hf : OrdSymm f)
    (a b : α) : ((f a b).isLE || (f b a).isLE) = true := by
  cases h : f a b with
  | lt => simp [Ordering.isLE]
  | eq => simp [Ordering.isLE]
  | gt =>
    have : f b a = .lt := by
      rw [hf b a, h]
      rfl
    simp [this, Ordering.isLE]

/-! Data model of the residents list route (`GET /api/residents` in the
demo API router).  A raw resident record keeps only the parts the route
reads; every field the route guards with a `typeof ... === "string"` check
is an `Option Str` (`none` models an absent or non-string value).  The
record's `health`, `equipment_used` and `update_log` parts are not read by
the list route and are not modelled here. -/

structure RawProfile where
  uuid : Option Str
  first_name : Option Str
  last_name : Option Str
  responsible_staff : Option Str
  date_of_birth : Option Str
  gender : Option Str
  room : Option Str
deriving DecidableEq

/-- Raw visit action `{key, value}` (value present only when it is a
string). -/
structure RawAction where
  key : Str
  value : Option Str
deriving DecidableEq

/-- Raw visit entry `{date, caretaker, actions}`. -/
structure RawVisit where
  date : Option Str
  caretaker : Option Str
  actions : Option (List RawAction)
deriving DecidableEq

structure RawResident where
  profile : Option RawProfile
  visits : Option (List RawVisit)
deriving DecidableEq

/-- The `resident.profile || {}` fallback object. -/
def emptyRawProfile : RawProfile := ⟨none, none, none, none, none, none, none⟩

/-- The `usersByUsername.has(u) ? usersByUsername.get(u).name : u`
resolution; the user table is abstracted as a username-to-display-name
partial map. -/
def usersName (users : Str → Option Str) (username : Str) : Str :=
  match users username with
  | some n => n
  | none => username

/-- The last-visit fold of the list route: scan the visits, keeping the
lexicographically largest string date (`visit.date > lastVisitDate` on JS
strings) together with its caretaker; entries without a string date are
skipped. -/
def lastVisitFold (visits : List RawVisit) : Str × Str :=
  visits.foldl
    (fun acc visit =>
      match visit.date with
      | none => acc
      | some d =>
        if acc.1 = [] ∨ jsStrLt acc.1 d then (d, visit.caretaker.getD [])
        else acc)
    ([], [])

/-- The per-resident projection built by the list route (the fields that
feed filtering, sorting and the response rows).  The purely cosmetic
display strings (`birthDateDisplay`, `genderShort`, `genderLong`,
`roomDisplay`, `lastVisitDisplay`) depend on the wall clock and the label
table only and feed neither the filter, the sort nor the pagination, so
they are not modelled. -/
structure ResidentMeta where
  uuid : Str
  firstName : Str
  lastName : Str
  name : Str
  responsibleStaffName : Str
  birthDate : Str
  genderValue : Str
  roomValue : Str
  lastVisitDate : Str
  lastVisitCaretakerName : Str
deriving DecidableEq

/-- The `demoResidents.map((resident) => ...)` step of the list route. -/
def mkMeta (users : Str → Option Str) (resident : RawResident) : ResidentMeta :=
  let profile := resident.profile.getD emptyRawProfile
  let firstName := profile.first_name.getD []
  let lastName := profile.last_name.getD []
  let name := jsTrim (firstName ++ ' ' :: lastName)
  let lastVisit := lastVisitFold (resident.visits.getD [])
  { uuid := profile.uuid.getD []
    firstName := firstName
    lastName := lastName
    name := name
    responsibleStaffName := usersName users (profile.responsible_staff.getD [])
    birthDate := profile.date_of_birth.getD []
    genderValue := profile.gender.getD []
    roomValue := profile.room.getD []
    lastVisitDate := lastVisit.1
    lastVisitCaretakerName := usersName users lastVisit.2 }

def RESIDENTS_PAGE_SIZE : Nat := 20

def RESIDENTS_SORT_FIELDS : List Str :=
  [("name").data, ("responsible_staff").data, ("birth_date").data,
   ("gender").data, ("room").data, ("last_visit_date").data,
   ("last_visit_staff").data]

/-- Resolution of the `sort_by` request parameter: a missing parameter
falls back to `"name"`, and any value outside the whitelist is silently
replaced by `"name"`. -/
def resolveSortBy (sort_by : Option Str) : Str :=
  let sortByRaw := sort_by.getD (("name").data)
  if sortByRaw ∈ RESIDENTS_SORT_FIELDS then sortByRaw else ("name").data

inductive SortOrder where
  | asc
  | desc
deriving DecidableEq

/-- The `req.query.sort_order === "desc" ? "desc" : "asc"` resolution. -/
def resolveSortOrder (sort_order : Option Str) : SortOrder :=
  if sort_order = some (("desc").data) then SortOrder.desc else SortOrder.asc

/-- The search predicate of the list route: the lowercased query must be a
substring of the lowercased first name, last name or full name. -/
def matchesQuery (query : Str) (resident : ResidentMeta) : Bool :=
  decide (query <:+: lower resident.firstName) ||
  decide (query <:+: lower resident.lastName) ||
  decide (query <:+: lower resident.name)

/-- The filter step: an empty (trimmed) query selects every record. -/
def filteredResidentsOf (query : Str) (metas : List ResidentMeta) :
    List ResidentMeta :=
  if query = [] then metas else metas.filter (matchesQuery query)

/-- The `compareValue` computed by the sort comparator before the final
name tie-break: an if-chain on the resolved sort key, defaulting to the
first-name-then-last-name comparison for `"name"` (and anything else). -/
def residentPrimaryCmp (sortBy : Str) (a b : ResidentMeta) : Ordering :=
  if sortBy = ("responsible_staff").data then
    strCmpCI a.responsibleStaffName b.responsibleStaffName
  else if sortBy = ("birth_date").data then
    strCmpCI a.birthDate b.birthDate
  else if sortBy = ("gender").data then
    strCmpCI a.genderValue b.genderValue
  else if sortBy = ("room").data then
    strCmpCI a.roomValue b.roomValue
  else if sortBy = ("last_visit_date").data then
    strCmpCI a.lastVisitDate b.lastVisitDate
  else if sortBy = ("last_visit_staff").data then
    strCmpCI a.lastVisitCaretakerName b.lastVisitCaretakerName
  else
    (strCmpCI a.firstName b.firstName).then (strCmpCI a.lastName b.lastName)

/-- The full sort comparator: `compareValue`, falling back to the full
display name when the primary comparison ties (`if (compareValue === 0)`
in the route). -/
def residentCmp (sortBy : Str) (a b : ResidentMeta) : Ordering :=
  (residentPrimaryCmp sortBy a b).then (strCmpCI a.name b.name)

/-- Applying the requested direction: `compareValue * direction` with
`direction = -1` for `"desc"` is the swapped ordering. -/
def dirCmp (sortOrder : SortOrder) (o : Ordering) : Ordering :=
  match sortOrder with
  | SortOrder.asc => o
  | SortOrder.desc => o.swap

/-- The boolean "a sorts no later than b" relation fed to the stable
sort. -/
def residentLe (sortBy : Str) (sortOrder : SortOrder)
    (a b : ResidentMeta) : Bool :=
  (dirCmp sortOrder (residentCmp sortBy a b)).isLE

/-- The in-place `filteredResidents.sort(comparator)` call, modelled by a
stable merge sort. -/
def sortResidents (sortBy : Str) (sortOrder : SortOrder)
    (l : List ResidentMeta) : List ResidentMeta :=
  l.mergeSort (residentLe sortBy sortOrder)

theorem residentPrimaryCmp_symm (k : Str) : OrdSymm (residentPrimaryCmp k) := by
  intro a b
  simp only [residentPrimaryCmp]
  split_ifs <;> simp only [then_swap, ← strCmpCI_symm]

theorem residentPrimaryCmp_leTrans (k : Str) :
    OrdLeTrans (residentPrimaryCmp k) := by
  intro a b c
  simp only [residentPrimaryCmp]
  split_ifs
  all_goals
    first
      | exact strCmpCI_leTrans _ _ _
      | exact @ordLeTrans_then ResidentMeta
          (fun x y => strCmpCI x.firstName y.firstName)
          (fun x y => strCmpCI x.lastName y.lastName)
          (fun x y => strCmpCI_symm _ _)
          (fun x y z => strCmpCI_leTrans _ _ _)
          (fun x y z => strCmpCI_leTrans _ _ _) a b c

theorem residentCmp_symm (k : Str) : OrdSymm (residentCmp k) := by
  have h := ordSymm_then (residentPrimaryCmp_symm k)
    (fun a b => strCmpCI_symm a.name b.name)
  exact fun a b => h a b

theorem residentCmp_leTrans (k : Str) : OrdLeTrans (residentCmp k) := by
  have h := ordLeTrans_then (residentPrimaryCmp_symm k)
    (residentPrimaryCmp_leTrans k)
    (fun a b c => strCmpCI_leTrans a.name b.name c.name)
  exact fun a b c => h a b c

theorem residentLe_trans (k : Str) (o : SortOrder) :
    ∀ a b c, residentLe k o a b → residentLe k o b c → residentLe k o a c := by
  cases o with
  | asc => exact fun a b c h1 h2 => residentCmp_leTrans k a b c h1 h2
  | desc =>
    exact fun a b c h1 h2 =>
      ordLeTrans_swap (residentCmp_symm k) (residentCmp_leTrans k) a b c h1 h2

theorem residentLe_total (k : Str) (o : SortOrder) :
    ∀ a b, (residentLe k o a b || residentLe k o b a) = true := by
  cases o with
  | asc => exact fun a b => ordTotal (residentCmp_symm k) a b
  | desc => exact fun a b => ordTotal (ordSymm_swap (residentCmp_symm k)) a b

/-- Pagination block of the list response. -/
structure PaginationR where
  current : Nat
  total : Nat
  totalItems : Nat
deriving DecidableEq

/-- The pagination step of the list route:
`totalPages = Math.ceil(totalItems / RESIDENTS_PAGE_SIZE)` (written as
`(totalItems + pageSize - 1) / pageSize` in Nat arithmetic),
`maxPage = totalPages > 0 ? totalPages - 1 : 0`,
`currentPage = Math.min(requestedPage, maxPage)`, and the page slice
`filteredResidents.slice(startIndex, startIndex + pageSize)`. -/
def paginateResidents (requestedPage : Nat) (filteredResidents : List ResidentMeta) :
    PaginationR × List ResidentMeta :=
  let totalItems := filteredResidents.length
  let totalPages := (totalItems + RESIDENTS_PAGE_SIZE - 1) / RESIDENTS_PAGE_SIZE
  let maxPage := if 0 < totalPages then totalPages - 1 else 0
  let currentPage := min requestedPage maxPage
  let startIndex := currentPage * RESIDENTS_PAGE_SIZE
  (⟨currentPage, totalPages, totalItems⟩,
    (filteredResidents.drop startIndex).take RESIDENTS_PAGE_SIZE)

/-- The JSON body returned by the list route (the parts with dynamic
content; the rows of `items` carry the `ResidentMeta` projections that the
route maps one-to-one into response rows). -/
structure ListResponse where
  pagination : PaginationR
  searchQuery : Str
  sortBy : Str
  sortOrder : SortOrder
  items : List ResidentMeta
deriving DecidableEq

/-- The full list route: trim and lowercase the query, resolve sort key
and direction, project, filter, sort, paginate.  `requestedPage` is the
already-normalized page number of lines 105-108 of the router (that
normalization itself is modelled separately by `requestedPageJs`). -/
def handleResidentsList (users : Str → Option Str)
    (demoResidents : List RawResident) (q : Option Str)
    (requestedPage : Nat) (sort_by : Option Str) (sort_order : Option Str) :
    ListResponse :=
  let queryRaw := jsTrim (q.getD [])
  let query := lower queryRaw
  let sortBy := resolveSortBy sort_by
  let sortOrder := resolveSortOrder sort_order
  let residentsWithMeta := demoResidents.map (mkMeta users)
  let filteredResidents := filteredResidentsOf query residentsWithMeta
  let sorted := sortResidents sortBy sortOrder filteredResidents
  let pg := paginateResidents requestedPage sorted
  { pagination := pg.1
    searchQuery := queryRaw
    sortBy := sortBy
    sortOrder := sortOrder
    items := pg.2 }

theorem paginateResidents_pagination (p : Nat) (l : List ResidentMeta) :
    (paginateResidents p l).1 =
      ⟨min p (if 0 < (l.length + RESIDENTS_PAGE_SIZE - 1) / RESIDENTS_PAGE_SIZE
          then (l.length + RESIDENTS_PAGE_SIZE - 1) / RESIDENTS_PAGE_SIZE - 1
          else 0),
        (l.length + RESIDENTS_PAGE_SIZE - 1) / RESIDENTS_PAGE_SIZE,
        l.length⟩ := rfl

theorem paginateResidents_items_length (p : Nat) (l : List ResidentMeta) :
    (paginateResidents p l).2.length =
      min RESIDENTS_PAGE_SIZE
        (l.length - (paginateResidents p l).1.current * RESIDENTS_PAGE_SIZE) := by
  simp [paginateResidents, List.length_take, List.length_drop]

/-- C4: the list sort is stable, total and deterministic: for every record
collection and every sort key/direction, applying the sort twice over the
same input yields the same output order as applying it once (the
comparator breaks ties between records comparing equal under the chosen
key by the full display name, so it induces a total preorder and sorting a
sorted list is the identity). -/
theorem residents_list_sort_idempotent (sortBy : Str) (sortOrder : SortOrder)
    (l : List ResidentMeta) :
    sortResidents sortBy sortOrder (sortResidents sortBy sortOrder l) =
      sortResidents sortBy sortOrder l :=
  List.mergeSort_of_sorted
    (List.sorted_mergeSort (residentLe_trans sortBy sortOrder)
      (residentLe_total sortBy sortOrder) l)

/-- C2: for every value of the `sort_by` parameter outside the whitelist,
and also when `sort_by` is absent, the list endpoint behaves exactly as if
`sort_by` were the default key `"name"` and echoes `sort.by == "name"`;
no error is surfaced (the handler is a total function). -/
theorem residents_list_sort_fallback (users : Str → Option Str)
    (residents : List RawResident) (q : Option Str) (p : Nat)
    (so : Option Str) :
    (∀ s, s ∉ RESIDENTS_SORT_FIELDS →
      handleResidentsList users residents q p (some s) so =
        handleResidentsList users residents q p (some (("name").data)) so ∧
      (handleResidentsList users residents q p (some s) so).sortBy =
        ("name").data) ∧
    (handleResidentsList users residents q p none so).sortBy =
      ("name").data := by
  constructor
  · intro s hs
    have hrs : resolveSortBy (some s) = ("name").data := by
      simp only [resolveSortBy, Option.getD]
      rw [if_neg hs]
    constructor
    · have hrs2 : resolveSortBy (some (("name").data)) = ("name").data := rfl
      simp only [handleResidentsList, hrs, hrs2]
    · exact hrs
  · rfl

def wUsers : Str → Option Str := fun _ => none

def wResident : RawResident := ⟨none, none⟩

theorem residents_list_sort_fallback_witness :
    (("bogus_field").data ∉ RESIDENTS_SORT_FIELDS) ∧
    (handleResidentsList wUsers [wResident] none 0
        (some (("bogus_field").data)) none).sortBy = ("name").data := by
  refine ⟨by decide, ?_⟩
  exact ((residents_list_sort_fallback wUsers [wResident] none 0 none).1
    (("bogus_field").data) (by decide)).2

theorem paginateResidents_bounds (p : Nat) (l : List ResidentMeta) :
    ((paginateResidents p l).1.totalItems ≤
        RESIDENTS_PAGE_SIZE * (paginateResidents p l).1.total ∧
      RESIDENTS_PAGE_SIZE * (paginateResidents p l).1.total <
        (paginateResidents p l).1.totalItems + RESIDENTS_PAGE_SIZE) ∧
    (paginateResidents p l).1.current =
      min p ((paginateResidents p l).1.total - 1) ∧
    (0 < (paginateResidents p l).1.totalItems →
      (paginateResidents p l).1.current < (paginateResidents p l).1.total) ∧
    ((paginateResidents p l).1.totalItems = 0 →
      (paginateResidents p l).1.current = 0) := by
  rw [paginateResidents_pagination]
  simp only [RESIDENTS_PAGE_SIZE]
  have hite : (if 0 < (l.length + 20 - 1) / 20 then (l.length + 20 - 1) / 20 - 1
      else 0) = (l.length + 20 - 1) / 20 - 1 := by
    split <;> omega
  rw [hite]
  refine ⟨⟨by omega, by omega⟩, rfl, ?_, ?_⟩ <;> omega

/-- C1: for every record collection and list query, the returned
pagination satisfies `totalPages = ceil(totalItems / 20)` (characterized
by the two inequalities; in particular 0 when there are no items), the
requested page is clamped into `[0, max(totalPages-1, 0)]` (the `min`
equation), `0 <= current < total` whenever `totalItems > 0`, and
`current = 0` when `totalItems = 0`; with 45 records and request `p = 2`
the response carries `{current: 2, total: 3, totalItems: 45}` and exactly
5 items. -/
theorem residents_list_pagination_spec (users : Str → Option Str)
    (residents : List RawResident) (q : Option Str) (p : Nat)
    (sb so : Option Str) (resp : ListResponse)
    (hresp : resp = handleResidentsList users residents q p sb so) :
    (resp.pagination.totalItems ≤
        RESIDENTS_PAGE_SIZE * resp.pagination.total ∧
      RESIDENTS_PAGE_SIZE * resp.pagination.total <
        resp.pagination.totalItems + RESIDENTS_PAGE_SIZE) ∧
    resp.pagination.current = min p (resp.pagination.total - 1) ∧
    (0 < resp.pagination.totalItems →
      resp.pagination.current < resp.pagination.total) ∧
    (resp.pagination.totalItems = 0 → resp.pagination.current = 0) ∧
    (residents.length = 45 → q = none → p = 2 →
      resp.pagination = ⟨2, 3, 45⟩ ∧ resp.items.length = 5) := by
  subst hresp
  have hmain := paginateResidents_bounds p
    (sortResidents (resolveSortBy sb) (resolveSortOrder so)
      (filteredResidentsOf (lower (jsTrim (q.getD [])))
        (residents.map (mkMeta users))))
  refine ⟨hmain.1, hmain.2.1, hmain.2.2.1, hmain.2.2.2, ?_⟩
  intro h45 hq hp
  subst hq
  subst hp
  have hL : (sortResidents (resolveSortBy sb) (resolveSortOrder so)
      (filteredResidentsOf (lower (jsTrim ((none : Option Str).getD [])))
        (residents.map (mkMeta users)))).length = 45 := by
    rw [sortResidents, List.length_mergeSort]
    have hfe : filteredResidentsOf
        (lower (jsTrim ((none : Option Str).getD [])))
        (residents.map (mkMeta users)) = residents.map (mkMeta users) := rfl
    rw [hfe, List.length_map, h45]
  have hpag : (handleResidentsList users residents none 2 sb so).pagination =
      (paginateResidents 2 (sortResidents (resolveSortBy sb)
        (resolveSortOrder so)
        (filteredResidentsOf (lower (jsTrim ((none : Option Str).getD [])))
          (residents.map (mkMeta users))))).1 := rfl
  have hitems : (handleResidentsList users residents none 2 sb so).items =
      (paginateResidents 2 (sortResidents (resolveSortBy sb)
        (resolveSortOrder so)
        (filteredResidentsOf (lower (jsTrim ((none : Option Str).getD [])))
          (residents.map (mkMeta users))))).2 := rfl
  constructor
  · rw [hpag, paginateResidents_pagination, hL]
    decide
  · rw [hitems, paginateResidents_items_length, paginateResidents_pagination,
      hL]
    decide

def w45 : List RawResident := List.replicate 45 wResident

theorem residents_list_pagination_spec_witness :
    (handleResidentsList wUsers w45 none 2 none none).pagination =
        ⟨2, 3, 45⟩ ∧
      (handleResidentsList wUsers w45 none 2 none none).items.length = 5 := by
  have h := residents_list_pagination_spec wUsers w45 none 2 none none
    (handleResidentsList wUsers w45 none 2 none none) rfl
  exact h.2.2.2.2 (by decide) rfl rfl

theorem infix_append_left {q a b : Str} (h : q <:+: a) : q <:+: a ++ b := by
  obtain ⟨s, t, hst⟩ := h
  exact ⟨s, t ++ b, by rw [← hst]; simp⟩

theorem infix_append_right {q a b : Str} (h : q <:+: b) : q <:+: a ++ b := by
  obtain ⟨s, t, hst⟩ := h
  exact ⟨a ++ s, t, by rw [← hst]; simp⟩

/-- C3: the list filter is case-insensitive substring matching on the
derived full name: (a) every returned item's lowercased full name contains
the lowercased trimmed search string as a substring; (b) an empty (or
all-whitespace) search string selects all records, giving the very same
response as an absent one; (c) two search strings that agree after
lowercasing select identical items and pagination — the filter is never
case-sensitive. -/
theorem residents_list_filter_case_insensitive (users : Str → Option Str)
    (residents : List RawResident) (qs : Str) (p : Nat)
    (sb so : Option Str) :
    (∀ m ∈ (handleResidentsList users residents (some qs) p sb so).items,
      lower (jsTrim qs) <:+: lower m.name) ∧
    (jsTrim qs = [] →
      handleResidentsList users residents (some qs) p sb so =
        handleResidentsList users residents none p sb so) ∧
    (∀ q₂, lower qs = lower q₂ →
      (handleResidentsList users residents (some qs) p sb so).items =
          (handleResidentsList users residents (some q₂) p sb so).items ∧
        (handleResidentsList users residents (some qs) p sb so).pagination =
          (handleResidentsList users residents (some q₂) p sb so).pagination) := by
  refine ⟨?_, ?_, ?_⟩
  · intro m hm
    have e1 : (handleResidentsList users residents (some qs) p sb so).items =
        (paginateResidents p (sortResidents (resolveSortBy sb)
          (resolveSortOrder so)
          (filteredResidentsOf (lower (jsTrim qs))
            (residents.map (mkMeta users))))).2 := rfl
    rw [e1] at hm
    have e2 : (paginateResidents p (sortResidents (resolveSortBy sb)
        (resolveSortOrder so)
        (filteredResidentsOf (lower (jsTrim qs))
          (residents.map (mkMeta users))))).2 =
        ((sortResidents (resolveSortBy sb) (resolveSortOrder so)
          (filteredResidentsOf (lower (jsTrim qs))
            (residents.map (mkMeta users)))).drop
          ((paginateResidents p (sortResidents (resolveSortBy sb)
            (resolveSortOrder so)
            (filteredResidentsOf (lower (jsTrim qs))
              (residents.map (mkMeta users))))).1.current *
            RESIDENTS_PAGE_SIZE)).take RESIDENTS_PAGE_SIZE := rfl
    rw [e2] at hm
    have hm2 := List.drop_subset _ _ (List.take_subset _ _ hm)
    rw [sortResidents] at hm2
    have hm3 := List.mem_mergeSort.mp hm2
    by_cases hq0 : lower (jsTrim qs) = []
    · rw [hq0]
      exact List.nil_infix
    · rw [filteredResidentsOf, if_neg hq0] at hm3
      obtain ⟨hmem, hmatch⟩ := List.mem_filter.mp hm3
      obtain ⟨r, hr, hmr⟩ := List.mem_map.mp hmem
      subst hmr
      simp only [matchesQuery, Bool.or_eq_true, decide_eq_true_eq] at hmatch
      have hname : (mkMeta users r).name =
          jsTrim ((mkMeta users r).firstName ++
            ' ' :: (mkMeta users r).lastName) := rfl
      have hsp : Char.toLower ' ' = ' ' := by decide
      have hsplit : lower ((mkMeta users r).firstName ++
          ' ' :: (mkMeta users r).lastName) =
          lower (mkMeta users r).firstName ++
            ' ' :: lower (mkMeta users r).lastName := by
        simp [lower, hsp]
      rcases hmatch with (h1 | h1) | h1
      · rw [hname, lower_jsTrim qs,
          lower_jsTrim ((mkMeta users r).firstName ++
            ' ' :: (mkMeta users r).lastName), hsplit]
        rw [lower_jsTrim qs] at h1
        exact jsTrim_infix_jsTrim (infix_append_left h1)
      · rw [hname, lower_jsTrim qs,
          lower_jsTrim ((mkMeta users r).firstName ++
            ' ' :: (mkMeta users r).lastName), hsplit]
        rw [lower_jsTrim qs] at h1
        exact jsTrim_infix_jsTrim
          (infix_append_right (infix_append_right (b := lower
            (mkMeta users r).lastName) (a := [' ']) h1))
      · exact h1
  · intro hq
    simp only [handleResidentsList, Option.getD_some, Option.getD_none]
    rw [hq, show jsTrim ([] : Str) = [] from rfl]
  · intro q₂ h12
    have hq : lower (jsTrim qs) = lower (jsTrim q₂) := by
      rw [lower_jsTrim, lower_jsTrim, h12]
    have e1 : (handleResidentsList users residents (some qs) p sb so).items =
        (paginateResidents p (sortResidents (resolveSortBy sb)
          (resolveSortOrder so)
          (filteredResidentsOf (lower (jsTrim qs))
            (residents.map (mkMeta users))))).2 := rfl
    have e2 : (handleResidentsList users residents (some q₂) p sb so).items =
        (paginateResidents p (sortResidents (resolveSortBy sb)
          (resolveSortOrder so)
          (filteredResidentsOf (lower (jsTrim q₂))
            (residents.map (mkMeta users))))).2 := rfl
    have e3 : (handleResidentsList users residents (some qs) p sb
        so).pagination =
        (paginateResidents p (sortResidents (resolveSortBy sb)
          (resolveSortOrder so)
          (filteredResidentsOf (lower (jsTrim qs))
            (residents.map (mkMeta users))))).1 := rfl
    have e4 : (handleResidentsList users residents (some q₂) p sb
        so).pagination =
        (paginateResidents p (sortResidents (resolveSortBy sb)
          (resolveSortOrder so)
          (filteredResidentsOf (lower (jsTrim q₂))
            (residents.map (mkMeta users))))).1 := rfl
    rw [e1, e2, e3, e4, hq]
    exact ⟨rfl, rfl⟩

def wProfile : RawProfile :=
  ⟨none, some (("Alice").data), some (("Smith").data), none, none, none,
    none⟩

def wResident2 : RawResident := ⟨some wProfile, none⟩

theorem residents_list_filter_case_insensitive_witness :
    mkMeta wUsers wResident2 ∈
        (handleResidentsList wUsers [wResident2] (some (("aLI").data)) 0
          none none).items ∧
      lower (jsTrim (("aLI").data)) <:+:
        lower (mkMeta wUsers wResident2).name := by
  have hf : filteredResidentsOf (lower (jsTrim (("aLI").data)))
      (List.map (mkMeta wUsers) [wResident2]) =
      [mkMeta wUsers wResident2] := by decide
  have hs : sortResidents (resolveSortBy none) (resolveSortOrder none)
      [mkMeta wUsers wResident2] = [mkMeta wUsers wResident2] :=
    List.mergeSort_of_sorted (by simp)
  have e : (handleResidentsList wUsers [wResident2] (some (("aLI").data)) 0
      none none).items =
      (paginateResidents 0 (sortResidents (resolveSortBy none)
        (resolveSortOrder none)
        (filteredResidentsOf (lower (jsTrim (("aLI").data)))
          (List.map (mkMeta wUsers) [wResident2])))).2 := rfl
  have hm : mkMeta wUsers wResident2 ∈
      (handleResidentsList wUsers [wResident2] (some (("aLI").data)) 0
        none none).items := by
    rw [e, hf, hs]
    decide
  exact ⟨hm, (residents_list_filter_case_insensitive wUsers [wResident2]
    (("aLI").data) 0 none none).1 (mkMeta wUsers wResident2) hm⟩

/-- Decimal rendering of a number (JS template interpolation of a
number). -/
def natStr (n : Nat) : Str := (Nat.repr n).data

/-- The `isFuture ? "from now" : "ago"` suffix. -/
def relSuffix (isFuture : Bool) : Str :=
  if isFuture then ("from now").data else ("ago").data

/-- The relative-time formatter core, shared verbatim by `formatRelative`
(both copies of the helper module) and by `formatVisitDate` and the list
route's inline copy: `diffMs = parsedTime - now`,
`absSeconds = Math.floor(Math.abs(diffMs) / 1000)`, then the threshold
chain 60 / 3600 / 86400 / 2592000 (a fixed 30-day month). -/
def formatRelativeFromDiff (diffMs : Int) : Str :=
  let isFuture := decide (0 < diffMs)
  let absSeconds := diffMs.natAbs / 1000
  if absSeconds < 60 then ("just now").data
  else if absSeconds < 3600 then
    natStr (absSeconds / 60) ++ (" min ").data ++ relSuffix isFuture
  else if absSeconds < 86400 then
    natStr (absSeconds / 3600) ++ (" hr ").data ++ relSuffix isFuture
  else if absSeconds < 2592000 then
    natStr (absSeconds / 86400) ++ (" day").data ++
      (if absSeconds / 86400 = 1 then [] else ("s").data) ++
      (" ").data ++ relSuffix isFuture
  else
    natStr (absSeconds / 2592000) ++ (" mo ").data ++ relSuffix isFuture

/-- The `formatRelative(value)` helper evaluated at a successfully parsed
instant: `diffMs = parsed.getTime() - Date.now()`. -/
def formatRelative (parsedTime now : Int) : Str :=
  formatRelativeFromDiff (parsedTime - now)

/-- C5: the relative-time formatter applies non-overlapping thresholds in
order — under 60 seconds "just now", under 1 hour minutes, under 1 day
hours, under 30 days days (pluralized except at exactly 1), otherwise
months with a fixed 30-day month — and every unit beyond "just now" is
suffixed "ago" for past instants and "from now" for future ones; a visit
45 seconds before now formats as "just now" and 90 seconds before as
"1 min ago". -/
theorem format_relative_thresholds (d : Int) :
    (d.natAbs / 1000 < 60 →
      formatRelativeFromDiff d = ("just now").data) ∧
    (60 ≤ d.natAbs / 1000 → d.natAbs / 1000 < 3600 →
      formatRelativeFromDiff d =
        natStr (d.natAbs / 1000 / 60) ++ (" min ").data ++
          (if 0 < d then ("from now").data else ("ago").data)) ∧
    (3600 ≤ d.natAbs / 1000 → d.natAbs / 1000 < 86400 →
      formatRelativeFromDiff d =
        natStr (d.natAbs / 1000 / 3600) ++ (" hr ").data ++
          (if 0 < d then ("from now").data else ("ago").data)) ∧
    (86400 ≤ d.natAbs / 1000 → d.natAbs / 1000 < 2592000 →
      formatRelativeFromDiff d =
        natStr (d.natAbs / 1000 / 86400) ++ (" day").data ++
          (if d.natAbs / 1000 / 86400 = 1 then [] else ("s").data) ++
          (" ").data ++
          (if 0 < d then ("from now").data else ("ago").data)) ∧
    (2592000 ≤ d.natAbs / 1000 →
      formatRelativeFromDiff d =
        natStr (d.natAbs / 1000 / 2592000) ++ (" mo ").data ++
          (if 0 < d then ("from now").data else ("ago").data)) ∧
    (∀ now : Int,
      formatRelative (now - 45000) now = ("just now").data ∧
        formatRelative (now - 90000) now = ("1 min ago").data) := by
  have hsuf : relSuffix (decide (0 < d)) =
      if 0 < d then ("from now").data else ("ago").data := by
    simp [relSuffix]
  refine ⟨?_, ?_, ?_, ?_, ?_, ?_⟩
  · intro h1
    simp only [formatRelativeFromDiff]
    rw [if_pos h1]
  · intro h1 h2
    simp only [formatRelativeFromDiff, hsuf]
    rw [if_neg (by omega), if_pos h2]
  · intro h1 h2
    simp only [formatRelativeFromDiff, hsuf]
    rw [if_neg (by omega), if_neg (by omega), if_pos h2]
  · intro h1 h2
    simp only [formatRelativeFromDiff, hsuf]
    rw [if_neg (by omega), if_neg (by omega), if_neg (by omega), if_pos h2]
  · intro h1
    simp only [formatRelativeFromDiff, hsuf]
    rw [if_neg (by omega), if_neg (by omega), if_neg (by omega),
      if_neg (by omega)]
  · intro now
    have h45 : now - 45000 - now = (-45000 : Int) := by omega
    have h90 : now - 90000 - now = (-90000 : Int) := by omega
    constructor
    · rw [formatRelative, h45]
      decide
    · rw [formatRelative, h90]
      decide

theorem format_relative_thresholds_witness :
    60 ≤ ((-90000 : Int).natAbs / 1000) ∧
      ((-90000 : Int).natAbs / 1000) < 3600 ∧
      formatRelativeFromDiff (-90000) = ("1 min ago").data := by
  refine ⟨by decide, by decide, ?_⟩
  have h := (format_relative_thresholds (-90000)).2.1 (by decide) (by decide)
  exact h.trans (by decide)

/-- Decimal digit-run parsing (`Number.parseInt(numberText, 10)` on a
nonempty digit string, and the digit loop of the label interpolator). -/
def natOfDigits (ds : Str) : Nat :=
  ds.foldl (fun n c => n * 10 + (c.toNat - 48)) 0

theorem length_dropWhile_le (p : Char → Bool) (l : Str) :
    (l.dropWhile p).length ≤ l.length := by
  induction l with
  | nil => simp
  | cons a l ih =>
    by_cases h : p a
    · rw [List.dropWhile_cons_of_pos h]
      exact Nat.le_succ_of_le ih
    · rw [List.dropWhile_cons_of_neg h]

/-- The template mini-language interpreter of the `labels` resolver: walk
the template; `\$` emits a literal dollar and skips both characters; `$`
followed by a nonempty digit run selects the 1-based positional argument
(resolving out-of-range indices, including `$0`, to the empty string) and
jumps past the digits; any other character is copied verbatim. -/
def interpTemplate (values : List Str) : Str → Str
  | [] => []
  | c :: rest =>
    if c = '\\' ∧ rest.head? = some '$' then
      '$' :: interpTemplate values rest.tail
    else if c = '$' ∧ rest.takeWhile Char.isDigit ≠ [] then
      (if 1 ≤ natOfDigits (rest.takeWhile Char.isDigit) ∧
          natOfDigits (rest.takeWhile Char.isDigit) ≤ values.length then
        values.getD (natOfDigits (rest.takeWhile Char.isDigit) - 1) []
      else []) ++ interpTemplate values (rest.dropWhile Char.isDigit)
    else c :: interpTemplate values rest
termination_by t => t.length
decreasing_by
  all_goals simp_wf
  all_goals have _h1 := List.length_tail rest
  all_goals have _h2 := length_dropWhile_le Char.isDigit rest
  all_goals omega

/-- The `INVALID_KEY("<key>")` placeholder. -/
def invalidKeyStr (key : Str) : Str :=
  ("INVALID_KEY(\"").data ++ key ++ ("\")").data

/-- The label resolver: an empty or unknown key yields the tagged
placeholder, a known key interpolates its template.  The label table is
abstracted as a string-keyed partial map (the route's `labelsEnUs` only
maps keys to strings, so the `typeof template !== "string"` guard of the
source can never fire in the model). -/
def labels (table : Str → Option Str) (key : Str) (values : List Str) :
    Str :=
  if key = [] then invalidKeyStr key
  else
    match table key with
    | none => invalidKeyStr key
    | some template => interpTemplate values template

theorem takeWhile_append_of_all {p : Char → Bool} {ds r : Str}
    (hds : ∀ c ∈ ds, p c) (hr : ∀ c, r.head? = some c → ¬ p c) :
    (ds ++ r).takeWhile p = ds ∧ (ds ++ r).dropWhile p = r := by
  induction ds with
  | nil =>
    simp only [List.nil_append]
    cases r with
    | nil => simp
    | cons c r' =>
      have hc : ¬ p c := hr c rfl
      constructor
      · rw [List.takeWhile_cons_of_neg (by simpa using hc)]
      · rw [List.dropWhile_cons_of_neg (by simpa using hc)]
  | cons d ds ih =>
    have hd : p d := hds d (by simp)
    have ih2 := ih (fun c hc => hds c (by simp [hc]))
    constructor
    · rw [List.cons_append, List.takeWhile_cons_of_pos hd, ih2.1]
    · rw [List.cons_append, List.dropWhile_cons_of_pos hd, ih2.2]

/-- C6: the label resolver is total and never throws: every key missing
from the label table (and the empty key) yields the visibly-tagged
placeholder `INVALID_KEY("<key>")`; every present key interpolates its
template, where `\$` is a literal dollar, `$` followed by a decimal digit
run selects the 1-based positional argument (out-of-range indices,
including `$0`, resolve to the empty string), and every other character —
including a `$` not followed by a digit and a `\` not followed by `$` —
is copied verbatim. -/
theorem labels_resolver_spec (table : Str → Option Str) (key : Str)
    (values : List Str) :
    (table key = none →
      labels table key values =
        ("INVALID_KEY(\"").data ++ key ++ ("\")").data) ∧
    (key ≠ [] → ∀ t, table key = some t →
      labels table key values = interpTemplate values t) ∧
    (∀ r, interpTemplate values ('\\' :: '$' :: r) =
      '$' :: interpTemplate values r) ∧
    (∀ ds r, ds ≠ [] → (∀ c ∈ ds, Char.isDigit c) →
      (∀ c, r.head? = some c → ¬ Char.isDigit c) →
      interpTemplate values ('$' :: (ds ++ r)) =
        (if 1 ≤ natOfDigits ds ∧ natOfDigits ds ≤ values.length then
          values.getD (natOfDigits ds - 1) []
        else []) ++ interpTemplate values r) ∧
    (∀ c r, c ≠ '$' → c ≠ '\\' →
      interpTemplate values (c :: r) = c :: interpTemplate values r) ∧
    (∀ r, (∀ c, r.head? = some c → c ≠ '$') →
      interpTemplate values ('\\' :: r) = '\\' :: interpTemplate values r) ∧
    (∀ r, (∀ c, r.head? = some c → ¬ Char.isDigit c) →
      interpTemplate values ('$' :: r) = '$' :: interpTemplate values r) := by
  refine ⟨?_, ?_, ?_, ?_, ?_, ?_, ?_⟩
  · intro h
    by_cases hk : key = []
    · simp [labels, hk, invalidKeyStr]
    · simp [labels, hk, h, invalidKeyStr]
  · intro hk t ht
    simp [labels, hk, ht]
  · intro r
    rw [interpTemplate]
    simp [interpTemplate]
  · intro ds r hne hds hr
    obtain ⟨ht, hd⟩ := takeWhile_append_of_all hds hr
    rw [interpTemplate, ht, hd, if_neg (by simp), if_pos ⟨rfl, hne⟩]
  · intro c r hc1 hc2
    rw [interpTemplate, if_neg (by simp [hc2]), if_neg (by simp [hc1])]
  · intro r hr
    have hcond : ¬ ('\\' = '\\' ∧ r.head? = some '$') := by
      rintro ⟨-, hh⟩
      exact hr '$' hh rfl
    rw [interpTemplate, if_neg hcond, if_neg (by simp)]
  · intro r hr
    have htw : r.takeWhile Char.isDigit = [] := by
      cases r with
      | nil => rfl
      | cons c r' =>
        rw [List.takeWhile_cons_of_neg (by simpa using hr c rfl)]
    rw [interpTemplate, if_neg (by simp), htw, if_neg (by simp)]

def wTable : Str → Option Str :=
  fun k => if k = ("greet").data then some (("Hi $1").data) else none

theorem labels_resolver_spec_witness :
    ((("greet").data : Str) ≠ []) ∧
    wTable (("greet").data) = some (("Hi $1").data) ∧
    labels wTable (("greet").data) [("Bob").data] =
      interpTemplate [("Bob").data] (("Hi $1").data) ∧
    wTable (("nope").data) = none ∧
    labels wTable (("nope").data) [] =
      ("INVALID_KEY(\"").data ++ ("nope").data ++ ("\")").data ∧
    interpTemplate [("Bob").data] ('$' :: ((("1").data) ++ (("!").data))) =
      (if 1 ≤ natOfDigits (("1").data) ∧
          natOfDigits (("1").data) ≤ [(("Bob").data)].length then
        [(("Bob").data)].getD (natOfDigits (("1").data) - 1) []
      else []) ++ interpTemplate [("Bob").data] (("!").data) := by
  refine ⟨by decide, by decide, ?_, by decide, ?_, ?_⟩
  · exact (labels_resolver_spec wTable (("greet").data)
      [("Bob").data]).2.1 (by decide) (("Hi $1").data) (by decide)
  · exact (labels_resolver_spec wTable (("nope").data) []).1 (by decide)
  · exact (labels_resolver_spec wTable [] [("Bob").data]).2.2.2.1
      (("1").data) (("!").data) (by decide) (by decide)
      (fun c hc => by
        simp at hc
        rw [← hc]
        decide)

/-! Model of the resident localization helpers (`buildLocalizedResident`):
the flattened visit-action lookup is abstracted as a partial map from
action key to its metadata (the source builds it once by flattening
`VISIT_CATEGORIES`; the flattening itself carries no logic beyond
last-write-wins insertion), and the label table as a string-keyed partial
map. -/

inductive ActionKind where
  | boolean
  | text
deriving DecidableEq

/-- One entry of the `VISIT_ACTION_LOOKUP` map. -/
structure ActionMeta where
  label_key : Str
  type : ActionKind
  category_label_key : Str
  group_label_key : Option Str
deriving DecidableEq

/-- A localized display value: the `string | boolean` union of the
`LocalizedVisitAction.value` field. -/
inductive FieldVal where
  | str (s : Str)
  | flag (b : Bool)
deriving DecidableEq

/-- A `{value, label}` localized field. -/
structure LocField where
  value : Str
  label : Str
deriving DecidableEq

structure LocalizedVisitAction where
  key : Str
  label : Str
  value : FieldVal
  category : Str
  group : Str
deriving DecidableEq

structure LocalizedVisitEntry where
  date : LocField
  caretaker : LocField
  actionsLabel : Str
  actionItems : List LocalizedVisitAction
deriving DecidableEq

/-- `resolveLabel(labelKey, fallback) = labelsEnUs[labelKey] || fallback`
(both a missing key and an empty-string value are falsy). -/
def resolveLabel (table : Str → Option Str) (labelKey : Str)
    (fallback : Str) : Str :=
  match table labelKey with
  | some v => if v = [] then fallback else v
  | none => fallback

/-- The per-action resolution of `buildLocalizedResident`: an explicit
string value wins; otherwise a boolean-kind action displays `true` and
anything else (text kind or unknown key) the empty string; the label
falls back to the raw action key, and category/group labels resolve
through the lookup metadata. -/
def localizeVisitAction (table : Str → Option Str)
    (lookup : Str → Option ActionMeta) (action : RawAction) :
    LocalizedVisitAction :=
  let meta := lookup action.key
  { key := action.key
    label := resolveLabel table
      (match meta with
        | some m => m.label_key
        | none => []) action.key
    value :=
      match action.value with
      | some s => FieldVal.str s
      | none =>
        match meta with
        | some m =>
          if m.type = ActionKind.boolean then FieldVal.flag true
          else FieldVal.str []
        | none => FieldVal.str []
    category :=
      match meta with
      | some m => resolveLabel table m.category_label_key []
      | none => []
    group :=
      match meta with
      | some m =>
        match m.group_label_key with
        | some g => if g = [] then [] else resolveLabel table g []
        | none => []
      | none => [] }

/-- The per-visit projection `{date, caretaker, actions}` of
`buildLocalizedResident`. -/
def localizeVisitEntry (table : Str → Option Str)
    (lookup : Str → Option ActionMeta) (entry : RawVisit) :
    LocalizedVisitEntry :=
  { date :=
      { value := entry.date.getD []
        label := resolveLabel table (("visits.date").data) (("Date").data) }
    caretaker :=
      { value := entry.caretaker.getD []
        label := resolveLabel table (("visits.caretaker").data)
          (("Caretaker").data) }
    actionsLabel := resolveLabel table (("visits.actions").data)
      (("Actions").data)
    actionItems :=
      (entry.actions.getD []).map (localizeVisitAction table lookup) }

/-- C7: the field-descriptor builder projects every raw visit into
`{date, caretaker, actions}`, resolving each action against the flattened
visit-action lookup: a boolean-kind action with no explicit string value
displays `true`, a text-kind action with no explicit value displays the
empty string, and an action key with no lookup entry uses the raw key
itself as its label. -/
theorem visit_action_resolution_spec (table : Str → Option Str)
    (lookup : Str → Option ActionMeta) (entry : RawVisit)
    (action : RawAction) :
    (localizeVisitEntry table lookup entry).date.value =
        entry.date.getD [] ∧
    (localizeVisitEntry table lookup entry).caretaker.value =
        entry.caretaker.getD [] ∧
    (localizeVisitEntry table lookup entry).actionItems =
        (entry.actions.getD []).map (localizeVisitAction table lookup) ∧
    (∀ m, lookup action.key = some m → m.type = ActionKind.boolean →
      action.value = none →
      (localizeVisitAction table lookup action).value =
        FieldVal.flag true) ∧
    (∀ m, lookup action.key = some m → m.type = ActionKind.text →
      action.value = none →
      (localizeVisitAction table lookup action).value = FieldVal.str []) ∧
    (lookup action.key = none → table [] = none →
      (localizeVisitAction table lookup action).label = action.key) := by
  refine ⟨rfl, rfl, rfl, ?_, ?_, ?_⟩
  · intro m hm htype hval
    simp [localizeVisitAction, hm, htype, hval]
  · intro m hm htype hval
    simp [localizeVisitAction, hm, htype, hval]
  · intro hm htable
    simp [localizeVisitAction, hm, resolveLabel, htable]

def wLookup : Str → Option ActionMeta :=
  fun k =>
    if k = ("pulse").data then
      some ⟨("visits.action.pulse").data, ActionKind.text,
        ("visits.category.medical-care").data,
        some (("visits.group.vital-measurements").data)⟩
    else if k = ("nail-care").data then
      some ⟨("visits.action.nail-care").data, ActionKind.boolean,
        ("visits.category.personal-care").data,
        some (("visits.group.personal-hygiene").data)⟩
    else none

theorem visit_action_resolution_spec_witness :
    (localizeVisitAction wTable wLookup ⟨("nail-care").data, none⟩).value =
        FieldVal.flag true ∧
    (localizeVisitAction wTable wLookup ⟨("pulse").data, none⟩).value =
        FieldVal.str [] ∧
    (localizeVisitAction wTable wLookup ⟨("mystery").data, none⟩).label =
        ("mystery").data := by
  refine ⟨?_, ?_, ?_⟩
  · exact (visit_action_resolution_spec wTable wLookup ⟨none, none, none⟩
      ⟨("nail-care").data, none⟩).2.2.2.1
      ⟨("visits.action.nail-care").data, ActionKind.boolean,
        ("visits.category.personal-care").data,
        some (("visits.group.personal-hygiene").data)⟩
      (by decide) rfl rfl
  · exact (visit_action_resolution_spec wTable wLookup ⟨none, none, none⟩
      ⟨("pulse").data, none⟩).2.2.2.2.1
      ⟨("visits.action.pulse").data, ActionKind.text,
        ("visits.category.medical-care").data,
        some (("visits.group.vital-measurements").data)⟩
      (by decide) rfl rfl
  · exact (visit_action_resolution_spec wTable wLookup ⟨none, none, none⟩
      ⟨("mystery").data, none⟩).2.2.2.2.2 (by decide) (by decide)

/-- The derived `location` field of `buildLocalizedResident`: the raw
`room` string is trimmed; a non-empty remainder yields `Room <room>`,
anything else (missing, empty or whitespace-only room) the fixed `Home`
label. -/
def locationValue (room : Option Str) : Str :=
  let roomValue :=
    match room with
    | some s => jsTrim s
    | none => []
  if roomValue ≠ [] then ("Room ").data ++ roomValue else ("Home").data

/-- The full `{value, label}` location field. -/
def locationField (table : Str → Option Str) (room : Option Str) :
    LocField :=
  { value := locationValue room
    label := resolveLabel table (("profile.location").data)
      (("Location").data) }

/-- Counterexample to C8 as stated: a whitespace-only room value `" "` is
non-empty text, yet the builder trims it and emits `Home`, not
`Room <room text>`. -/
theorem location_field_counterexample :
    locationValue (some [' ']) = ("Home").data ∧
      locationValue (some [' ']) ≠ ("Room ").data ++ [' '] := by
  decide

/-- C8 amended: the builder emits the derived non-schema `location`
field; whenever the room value contains non-whitespace text the value is
`"Room "` followed by the trimmed room text, otherwise (room missing,
empty, or whitespace-only) it is the fixed label `"Home"`; in particular
room `"12B"` yields `"Room 12B"` and a missing room yields `"Home"`. -/
theorem location_field_spec_amended (room : Option Str) :
    (room = none → locationValue room = ("Home").data) ∧
    (∀ s, room = some s → jsTrim s = [] →
      locationValue room = ("Home").data) ∧
    (∀ s, room = some s → jsTrim s ≠ [] →
      locationValue room = ("Room ").data ++ jsTrim s) ∧
    locationValue (some (("12B").data)) = ("Room 12B").data ∧
    locationValue none = ("Home").data := by
  refine ⟨?_, ?_, ?_, by decide, by decide⟩
  · intro h
    rw [h]
    decide
  · intro s hs h0
    rw [hs]
    simp [locationValue, h0]
  · intro s hs h0
    rw [hs]
    simp [locationValue, h0]

theorem location_field_spec_amended_witness :
    (jsTrim (("12B").data) ≠ []) ∧
      locationValue (some (("12B").data)) =
        ("Room ").data ++ jsTrim (("12B").data) := by
  refine ⟨by decide, ?_⟩
  exact (location_field_spec_amended (some (("12B").data))).2.2.1
    (("12B").data) rfl (by decide)

/-- Client-side table renderer state (the `TableView.state` object; the
renderer's typedefs pin `sortOrder` to `"asc" | "desc"`). -/
structure TState where
  page : Nat
  query : Str
  sortBy : Str
  sortOrder : SortOrder
deriving DecidableEq

/-- The sort-header click handler of `TableView.render`: clicking the
active column flips the direction, clicking a different column activates
it ascending; both reset the page to 0 before `load()`. -/
def clickSortHeader (st : TState) (colSortKey : Str) : TState :=
  if st.sortBy = colSortKey then
    { st with
      sortOrder :=
        match st.sortOrder with
        | SortOrder.asc => SortOrder.desc
        | SortOrder.desc => SortOrder.asc
      page := 0 }
  else
    { st with sortBy := colSortKey, sortOrder := SortOrder.asc, page := 0 }

/-- C9: in the table renderer's state machine, clicking the header of the
currently-active sortable column flips the sort direction between asc and
desc while keeping the sort key; clicking a different sortable column
sets that column's sort key active with ascending direction; and in both
cases the page index is reset to 0 before the reload. -/
theorem tableview_sort_click_spec (st : TState) (k : Str) :
    (clickSortHeader st k).page = 0 ∧
    (clickSortHeader st k).query = st.query ∧
    (st.sortBy = k →
      (clickSortHeader st k).sortBy = st.sortBy ∧
      (st.sortOrder = SortOrder.asc →
        (clickSortHeader st k).sortOrder = SortOrder.desc) ∧
      (st.sortOrder = SortOrder.desc →
        (clickSortHeader st k).sortOrder = SortOrder.asc)) ∧
    (st.sortBy ≠ k →
      (clickSortHeader st k).sortBy = k ∧
      (clickSortHeader st k).sortOrder = SortOrder.asc) := by
  by_cases h : st.sortBy = k
  · refine ⟨by simp [clickSortHeader, h], by simp [clickSortHeader, h],
      ?_, fun hc => absurd h hc⟩
    intro _
    refine ⟨by simp [clickSortHeader, h], ?_, ?_⟩
    · intro ho
      simp [clickSortHeader, h, ho]
    · intro ho
      simp [clickSortHeader, h, ho]
  · refine ⟨by simp [clickSortHeader, h], by simp [clickSortHeader, h],
      fun hc => absurd hc h, ?_⟩
    intro _
    exact ⟨by simp [clickSortHeader, h], by simp [clickSortHeader, h]⟩

theorem tableview_sort_click_spec_witness :
    ((⟨3, [], ("name").data, SortOrder.asc⟩ : TState).sortBy =
        ("name").data) ∧
    (clickSortHeader ⟨3, [], ("name").data, SortOrder.asc⟩
        (("name").data)).sortOrder = SortOrder.desc ∧
    (clickSortHeader ⟨3, [], ("name").data, SortOrder.asc⟩
        (("name").data)).page = 0 := by
  have h := tableview_sort_click_spec
    ⟨3, [], ("name").data, SortOrder.asc⟩ (("name").data)
  exact ⟨rfl, ((h.2.2.1 rfl).2.1) rfl, h.1⟩

/-- Hex digit test for `Number("0x...")` literals. -/
def isHexDigitChar (c : Char) : Bool :=
  c.isDigit || (97 ≤ c.toNat && c.toNat ≤ 102) ||
    (65 ≤ c.toNat && c.toNat ≤ 70)

/-- Model of `Number.isFinite(Number(p))` for a string `p` (the
StringNumericLiteral grammar): whitespace-only strings denote 0 (finite),
`Infinity` with optional sign is non-finite, a signed decimal literal
(digits, optional fraction, optional exponent), or an unsigned `0x`/`0o`/
`0b` radix literal, is finite, and anything else is NaN (non-finite).
Magnitude overflow of huge literals to `Infinity` is not modelled; it
could only move more inputs into the "treated as 0" bucket. -/
def jsDecLit (u : Str) : Bool :=
  let d1 := u.takeWhile Char.isDigit
  let r1 := u.dropWhile Char.isDigit
  let fr : Str × Str :=
    match r1 with
    | '.' :: rest => (rest.takeWhile Char.isDigit, rest.dropWhile Char.isDigit)
    | _ => ([], r1)
  if d1 = [] ∧ fr.1 = [] then false
  else
    match fr.2 with
    | [] => true
    | e :: rest =>
      if e = 'e' ∨ e = 'E' then
        let rest2 : Str :=
          match rest with
          | '+' :: rr => rr
          | '-' :: rr => rr
          | rr => rr
        if rest2 = [] then false else rest2.all Char.isDigit
      else false

def jsIsFiniteNumber (s : Str) : Bool :=
  let t := jsTrim s
  if t = [] then true
  else if t.take 2 = ("0x").data ∨ t.take 2 = ("0X").data then
    if t.drop 2 = [] then false else (t.drop 2).all isHexDigitChar
  else if t.take 2 = ("0o").data ∨ t.take 2 = ("0O").data then
    if t.drop 2 = [] then false
    else (t.drop 2).all (fun c => 48 ≤ c.toNat && c.toNat ≤ 55)
  else if t.take 2 = ("0b").data ∨ t.take 2 = ("0B").data then
    if t.drop 2 = [] then false
    else (t.drop 2).all (fun c => 48 ≤ c.toNat && c.toNat ≤ 49)
  else
    let u : Str :=
      match t with
      | '+' :: r => r
      | '-' :: r => r
      | r => r
    if u = ("Infinity").data then false else jsDecLit u

/-- Model of `Number.parseInt(p, 10)`: skip leading whitespace, read an
optional sign and then a leading decimal digit run; no digits means NaN
(`none`). -/
def jsParseInt10 (s : Str) : Option Int :=
  let t := s.dropWhile jsWs
  let sr : Int × Str :=
    match t with
    | '+' :: rr => (1, rr)
    | '-' :: rr => (-1, rr)
    | rr => (1, rr)
  let ds := sr.2.takeWhile Char.isDigit
  if ds = [] then none else some (sr.1 * (natOfDigits ds : Int))

/-- Lines 105-108 of the router: the requested page is
`Math.max(0, Number.parseInt(p, 10))` when `p` is a string with
`Number.isFinite(Number(p))`, and 0 otherwise.  `none` models the NaN
that `Math.max(0, NaN)` propagates when `parseInt` fails although the
finiteness guard passed. -/
def requestedPageJs (p : Option Str) : Option Int :=
  match p with
  | none => some 0
  | some s =>
    if jsIsFiniteNumber s then
      match jsParseInt10 s with
      | some i => some (max 0 i)
      | none => none
    else some 0

/-- C10 is a code bug: the page-parameter handling is NOT total in the
claimed sense.  For the empty string (a request `?p=`), `Number("")` is 0
and finite, so the guard passes, but `parseInt("", 10)` is NaN and
`Math.max(0, NaN)` is NaN (modelled `none`) — the requested page is not a
non-negative integer and the empty/whitespace `p` is not treated as 0;
`pagination.current` is then `NaN`, serialized as `null`, contradicting
the renderer's own `TableViewPagination.current : number` contract.  All
other sampled inputs behave as claimed (absent and non-numeric `p` give
0, negative integers clamp to 0, numeric strings parse). -/
theorem requested_page_nan_bug :
    requestedPageJs (some []) = none ∧
    jsIsFiniteNumber [] = true ∧
    jsParseInt10 [] = none ∧
    requestedPageJs none = some 0 ∧
    requestedPageJs (some (("5").data)) = some 5 ∧
    requestedPageJs (some (("-3").data)) = some 0 ∧
    requestedPageJs (some (("12.9").data)) = some 12 ∧
    requestedPageJs (some (("abc").data)) = some 0 ∧
    requestedPageJs (some (("Infinity").data)) = some 0 ∧
    requestedPageJs (some ((" ").data)) = none := by
  decide
